import Mathlib

/-!
# Verification of the `persist` typed persistence library

Shallow embedding of the core of the `persist` repository: the CBOR
file-snapshot driver (`driver_cbor.go`), the generic typed `Map`
(`map.go`), the single-slot `Value` (`value.go`) and the panicking
`Must` wrappers (`must.go`).

Byte strings are `List Nat`; Go `error` results are `Option GoErr`
(`none` = nil).  The driver's in-memory `map[cbor.ByteString]cbor.RawMessage`
is an association list with unique keys; the filesystem visible to the
driver is an association list from paths to file contents.  The external
CBOR marshalling of the whole map (`cbor.Marshal(d.m)` /
`cbor.NewDecoder(f).Decode(&d.m)`) is out of scope of the repository and
is passed in as an explicit function parameter wherever it occurs.
Go closures that mutate captured variables are modelled by threading an
explicit output/state component through the callback.
-/

namespace Persist

/-- Byte strings (`[]byte`). -/
abbrev Bytes := List Nat

/-- Go `error` values as produced by this library: `errors.New` messages,
`fmt.Errorf("...: %w", err)` wrapping, and the `driverStopIteration`
sentinel from `driver.go`. -/
inductive GoErr where
  | msg : String → GoErr
  | wrap : String → GoErr → GoErr
  | stopIter : GoErr
deriving DecidableEq

/-- `driverStopIteration` from `driver.go`: the sentinel an iterator returns
to stop the driver from iterating. -/
def driverStopIter : GoErr := GoErr.stopIter

/-- The driver's in-memory contents: `map[cbor.ByteString]cbor.RawMessage`,
as an association list. -/
abbrev Mp := List (Bytes × Bytes)

/-- Association-list lookup (Go map read `d.m[k]`). -/
def lookupB (k : Bytes) : Mp → Option Bytes
  | [] => none
  | (k', v) :: rest => if k' = k then some v else lookupB k rest

/-- Association-list update-or-append (Go map write `d.m[k] = v`). -/
def insertB (k v : Bytes) : Mp → Mp
  | [] => [(k, v)]
  | (k', v') :: rest => if k' = k then (k, v) :: rest else (k', v') :: insertB k v rest

/-- Association-list removal (Go `delete(d.m, k)`). -/
def eraseB (k : Bytes) : Mp → Mp
  | [] => []
  | (k', v') :: rest => if k' = k then eraseB k rest else (k', v') :: eraseB k rest

/-- The filesystem the CBOR driver writes its snapshot file into:
path ↦ file contents.  A missing path means the file does not exist. -/
abbrev FS := List (String × Bytes)

/-- Filesystem read (`os.Open` / `os.ReadFile`). -/
def lookupFS (p : String) : FS → Option Bytes
  | [] => none
  | (p', b) :: rest => if p' = p then some b else lookupFS p rest

/-- Filesystem write (`os.WriteFile`). -/
def insertFS (p : String) (b : Bytes) : FS → FS
  | [] => [(p, b)]
  | (p', b') :: rest => if p' = p then (p, b) :: rest else (p', b') :: insertFS p b rest

/-- `cborDriver` from `driver_cbor.go`: the path it snapshots to and its
in-memory map.  (The `sync.RWMutex` only serialises concurrent access and
has no sequential behaviour.) -/
structure CborDriver where
  path : String
  m : Mp
deriving DecidableEq

/-- `cborDriver.Get`: `v, ok := d.m[k]; return v, ok, nil`.  The Go zero
value of `[]byte` on a miss is the empty byte string. -/
def cborGet (k : Bytes) (m : Mp) : Bytes × Bool × Option GoErr :=
  match lookupB k m with
  | some v => (v, true, none)
  | none => ([], false, none)

/-- `cborDriver.Set`: `d.m[k] = v; return nil`. -/
def cborSet (k v : Bytes) (m : Mp) : Option GoErr × Mp :=
  (none, insertB k v m)

/-- `cborDriver.Delete`: `delete(d.m, k); return nil`. -/
def cborDelete (k : Bytes) (m : Mp) : Option GoErr × Mp :=
  (none, eraseB k m)

/-- `cborDriver.Close`: `return nil`. -/
def cborClose (_ : CborDriver) : Option GoErr :=
  none

/-- `cborDriver.Each`: visit every entry in order; the first non-nil visitor
error is returned verbatim and ends the loop.  The visitor's captured
variables are the explicit state `σ`. -/
def cborEach (f : σ → Bytes → Bytes → Option GoErr × σ) : Mp → σ → Option GoErr × σ
  | [], s => (none, s)
  | (k, v) :: rest, s =>
    match f s k v with
    | (some e, s') => (some e, s')
    | (none, s') => cborEach f rest s'

/-- `cborDriver.EachKey`: like `Each` but the visitor only sees the key. -/
def cborEachKey (f : σ → Bytes → Option GoErr × σ) : Mp → σ → Option GoErr × σ
  | [], s => (none, s)
  | (k, _) :: rest, s =>
    match f s k with
    | (some e, s') => (some e, s')
    | (none, s') => cborEachKey f rest s'

/-- `cborDriver.AcquireRO`: runs the callback on the current contents and
returns its error; no mutation is possible through the read-only
transaction interface. -/
def acquireRO (d : CborDriver) (f : Mp → Option GoErr × β) : Option GoErr × β :=
  f d.m

/-- `cborDriver.AcquireRW`: runs the callback on the map (the callback
mutates `d.m` in place, so the mutated map is kept even on callback
error); on callback success it marshals the whole map and writes it to
`d.path`.  The external `cbor.Marshal` is the `marshal` parameter; its
error path (`persist: marshal CBOR`) cannot fire for a
bytes-to-bytes map and is not modelled.  `os.WriteFile` is modelled as
succeeding. -/
def acquireRW (marshal : Mp → Bytes) (d : CborDriver) (fs : FS)
    (f : Mp → Option GoErr × Mp × β) : Option GoErr × CborDriver × FS × β :=
  match f d.m with
  | (some e, m', b) => (some e, ⟨d.path, m'⟩, fs, b)
  | (none, m', b) => (none, ⟨d.path, m'⟩, insertFS d.path (marshal m') fs, b)

/-- `openCBORDriver` from `driver_cbor.go`: if the file at `path` does not
exist, start from an empty map and immediately run a no-op read-write
transaction (which snapshots the empty map to `path`); if it exists,
decode it with the external CBOR decoder (`unmarshal`), failing the open
on a decode error.  Note that the `":memory:"` sentinel is not treated
specially anywhere in this function. -/
def openCBORDriver (marshal : Mp → Bytes) (unmarshal : Bytes → Except GoErr Mp)
    (fs : FS) (path : String) : Except GoErr (CborDriver × FS) :=
  match lookupFS path fs with
  | none =>
    match acquireRW marshal ⟨path, []⟩ fs (fun m => (none, m, ())) with
    | (some e, _, _, _) => .error e
    | (none, d, fs', _) => .ok (d, fs')
  | some bs =>
    match unmarshal bs with
    | .error e => .error (.wrap "persist: decode CBOR" e)
    | .ok m => .ok (⟨path, m⟩, fs)

/-- The `Map`'s encoder pair (`kencoder`/`vencoder` fields of `Map[K, V]`,
each an `Encoder` as in `encoder.go`: `Encode` and `Decode` both may
fail).  A decoder that fails yields the Go zero value alongside the
error; the zero value is passed explicitly (`v0`) where it is needed. -/
structure EncPair (K V : Type) where
  kenc : K → Except GoErr Bytes
  kdec : Bytes → Except GoErr K
  venc : V → Except GoErr Bytes
  vdec : Bytes → Except GoErr V

/-- `Map.Store` from `map.go`: encode key and value (each failure wrapped),
then one read-write transaction doing `tx.Set`. -/
def mapStore (enc : EncPair K V) (marshal : Mp → Bytes) (k : K) (v : V)
    (d : CborDriver) (fs : FS) : Option GoErr × CborDriver × FS :=
  match enc.kenc k with
  | .error e => (some (.wrap "encode key" e), d, fs)
  | .ok bk =>
    match enc.venc v with
    | .error e => (some (.wrap "encode value" e), d, fs)
    | .ok bv =>
      match acquireRW marshal d fs (fun m =>
          match cborSet bk bv m with
          | (e, m') => (e, m', ())) with
      | (err, d', fs', _) => (err, d', fs')

/-- `Map.Load` from `map.go`: encode the key, one read-only transaction:
`Get`, and if found decode the value.  The `found` flag is the captured
`ok` variable, set by `Get` before any decoding; `v0` is the Go zero
value of `V`. -/
def mapLoad (enc : EncPair K V) (v0 : V) (k : K) (d : CborDriver) :
    V × Bool × Option GoErr :=
  match enc.kenc k with
  | .error e => (v0, false, some (.wrap "encode key" e))
  | .ok bk =>
    match acquireRO d (fun m =>
        match cborGet bk m with
        | (bv, ok, gerr) =>
          match gerr with
          | some e => (some (.wrap "get value" e), (v0, ok))
          | none =>
            if ok then
              match enc.vdec bv with
              | .error e => (some (.wrap "decode value" e), (v0, ok))
              | .ok v => (none, (v, ok))
            else (none, (v0, ok))) with
    | (err, (v, ok)) => (v, ok, err)

/-- `Map.LoadOrStore` from `map.go`: one read-write transaction with a
get-then-conditionally-set.  The named results `value`/`loaded` start at
the zero value / `false` and, in the absent branch, are **not** assigned
before `return tx.Set(bk, bv)` — so on a fresh store the caller gets the
zero value back, not `v`.  A bare `return` after a key-encode failure
returns the error unwrapped. -/
def mapLoadOrStore (enc : EncPair K V) (marshal : Mp → Bytes) (v0 : V)
    (k : K) (v : V) (d : CborDriver) (fs : FS) :
    V × Bool × Option GoErr × CborDriver × FS :=
  match enc.kenc k with
  | .error e => (v0, false, some e, d, fs)
  | .ok bk =>
    match acquireRW marshal d fs (fun m =>
        match cborGet bk m with
        | (bv, ok, gerr) =>
          match gerr with
          | some e => (some (.wrap "get value" e), m, (v0, false))
          | none =>
            if ok then
              match enc.vdec bv with
              | .error e => (some (.wrap "decode value" e), m, (v0, false))
              | .ok w => (none, m, (w, true))
            else
              match enc.venc v with
              | .error e => (some (.wrap "encode value" e), m, (v0, false))
              | .ok bv' =>
                match cborSet bk bv' m with
                | (e, m') => (e, m', (v0, false))) with
    | (err, d', fs', (value, loaded)) => (value, loaded, err, d', fs')

/-- `Map.LoadAndDelete` from `map.go`: one read-write transaction; on a
miss return `(zero, false, nil)`; on a hit set `loaded = true`, decode
(failure wrapped and returned, nothing deleted), then `tx.Delete`. -/
def mapLoadAndDelete (enc : EncPair K V) (marshal : Mp → Bytes) (v0 : V)
    (k : K) (d : CborDriver) (fs : FS) :
    V × Bool × Option GoErr × CborDriver × FS :=
  match enc.kenc k with
  | .error e => (v0, false, some e, d, fs)
  | .ok bk =>
    match acquireRW marshal d fs (fun m =>
        match cborGet bk m with
        | (bv, ok, gerr) =>
          match gerr with
          | some e => (some (.wrap "get value" e), m, (v0, false))
          | none =>
            if ok then
              match enc.vdec bv with
              | .error e => (some (.wrap "decode value" e), m, (v0, true))
              | .ok w =>
                match cborDelete bk m with
                | (e, m') => (e, m', (w, true))
            else (none, m, (v0, false))) with
    | (err, d', fs', (value, loaded)) => (value, loaded, err, d', fs')

/-- `Map.Delete` from `map.go`: encode the key (failure wrapped), one
read-write transaction doing `tx.Delete`. -/
def mapDelete (enc : EncPair K V) (marshal : Mp → Bytes) (k : K)
    (d : CborDriver) (fs : FS) : Option GoErr × CborDriver × FS :=
  match enc.kenc k with
  | .error e => (some (.wrap "encode key" e), d, fs)
  | .ok bk =>
    match acquireRW marshal d fs (fun m =>
        match cborDelete bk m with
        | (e, m') => (e, m', ())) with
    | (err, d', fs', _) => (err, d', fs')

/-- `Map.Close` from `map.go`: delegates to the driver's `Close`. -/
def mapClose (d : CborDriver) : Option GoErr :=
  cborClose d

/-- The visitor `Map.All` hands to `tx.Each`: decode key then value
(each failure wrapped and propagated), yield the typed pair to the
consumer, and translate the consumer's "stop" into the
`driverStopIteration` sentinel.  The consumer's captured state is `τ`. -/
def mapAllVisitor (enc : EncPair K V) (yield : τ → K → V → Bool × τ) :
    τ → Bytes → Bytes → Option GoErr × τ :=
  fun t bk bv =>
    match enc.kdec bk with
    | .error e => (some (.wrap "decode key" e), t)
    | .ok k =>
      match enc.vdec bv with
      | .error e => (some (.wrap "decode value" e), t)
      | .ok v =>
        match yield t k v with
        | (true, t') => (none, t')
        | (false, t') => (some driverStopIter, t')

/-- `Map.All` from `map.go`: one read-only transaction driving `tx.Each`
with `mapAllVisitor`.  The result of `AcquireRO` is **discarded** —
whatever the consumer can observe is in its own state `τ`, and there is
no error channel to it. -/
def mapAll (enc : EncPair K V) (d : CborDriver) (yield : τ → K → V → Bool × τ)
    (t : τ) : τ :=
  match acquireRO d (fun m => cborEach (mapAllVisitor enc yield) m t) with
  | (_, t') => t'

/-- `Map.Keys` visitor (decode key, yield, translate stop), for
completeness of the iteration layer. -/
def mapKeysVisitor (enc : EncPair K V) (yield : τ → K → Bool × τ) :
    τ → Bytes → Option GoErr × τ :=
  fun t bk =>
    match enc.kdec bk with
    | .error e => (some (.wrap "decode key" e), t)
    | .ok k =>
      match yield t k with
      | (true, t') => (none, t')
      | (false, t') => (some driverStopIter, t')

/-- `type valueKeyT = int` from `value.go`. -/
abbrev ValueKeyT := Int

/-- `const valueKey valueKeyT = 0` from `value.go`. -/
def valueKey : ValueKeyT := 0

/-- `mappedValue` from `value.go`: a `Map` (its encoder pair — the driver
state is threaded separately, as everywhere in this embedding) plus the
fixed key every operation is applied to. -/
structure MappedValue (K V : Type) where
  m : EncPair K V
  k : K

/-- `NewValue`: a `mappedValue` over a fresh `Map` with the constant
`valueKey` as its key. -/
def newValue (enc : EncPair ValueKeyT V) : MappedValue ValueKeyT V :=
  ⟨enc, valueKey⟩

/-- `mappedValue.Store`. -/
def valueStore (mv : MappedValue K V) (marshal : Mp → Bytes) (v : V)
    (d : CborDriver) (fs : FS) : Option GoErr × CborDriver × FS :=
  mapStore mv.m marshal mv.k v d fs

/-- `mappedValue.Load`. -/
def valueLoad (mv : MappedValue K V) (v0 : V) (d : CborDriver) :
    V × Bool × Option GoErr :=
  mapLoad mv.m v0 mv.k d

/-- `mappedValue.LoadOrStore`. -/
def valueLoadOrStore (mv : MappedValue K V) (marshal : Mp → Bytes) (v0 v : V)
    (d : CborDriver) (fs : FS) : V × Bool × Option GoErr × CborDriver × FS :=
  mapLoadOrStore mv.m marshal v0 mv.k v d fs

/-- `mappedValue.LoadAndDelete`. -/
def valueLoadAndDelete (mv : MappedValue K V) (marshal : Mp → Bytes) (v0 : V)
    (d : CborDriver) (fs : FS) : V × Bool × Option GoErr × CborDriver × FS :=
  mapLoadAndDelete mv.m marshal v0 mv.k d fs

/-- `mappedValue.Delete`. -/
def valueDelete (mv : MappedValue K V) (marshal : Mp → Bytes)
    (d : CborDriver) (fs : FS) : Option GoErr × CborDriver × FS :=
  mapDelete mv.m marshal mv.k d fs

/-- `mappedValue.Close`. -/
def valueClose (_ : MappedValue K V) (d : CborDriver) : Option GoErr :=
  mapClose d

/-- Rendering of a `GoErr` by `fmt.Sprintf("%v", err)`. -/
def goErrString : GoErr → String
  | .msg s => s
  | .wrap s e => s ++ ": " ++ goErrString e
  | .stopIter => "stop iteration"

/-- The outcome of a `Must` wrapper call: either the unwrapped result or a
process abort (`panic`) carrying the message. -/
inductive MustOut (α : Type) where
  | ok : α → MustOut α
  | panicked : String → MustOut α

/-- `MustMap.Load` from `must.go`: panic on any non-nil error, else return
`(v, ok)`. -/
def mustMapLoad (enc : EncPair K V) (v0 : V) (k : K) (d : CborDriver) :
    MustOut (V × Bool) :=
  match mapLoad enc v0 k d with
  | (v, ok, none) => .ok (v, ok)
  | (_, _, some e) => .panicked ("MustMap cannot load: " ++ goErrString e)

/-- `MustMap.LoadAndDelete` from `must.go`. -/
def mustMapLoadAndDelete (enc : EncPair K V) (marshal : Mp → Bytes) (v0 : V)
    (k : K) (d : CborDriver) (fs : FS) :
    MustOut ((V × Bool) × CborDriver × FS) :=
  match mapLoadAndDelete enc marshal v0 k d fs with
  | (v, loaded, none, d', fs') => .ok ((v, loaded), d', fs')
  | (_, _, some e, _, _) =>
    .panicked ("MustMap cannot load and delete: " ++ goErrString e)

/-- `MustMap.LoadOrStore` from `must.go`. -/
def mustMapLoadOrStore (enc : EncPair K V) (marshal : Mp → Bytes) (v0 : V)
    (k : K) (v : V) (d : CborDriver) (fs : FS) :
    MustOut ((V × Bool) × CborDriver × FS) :=
  match mapLoadOrStore enc marshal v0 k v d fs with
  | (w, loaded, none, d', fs') => .ok ((w, loaded), d', fs')
  | (_, _, some e, _, _) =>
    .panicked ("MustMap cannot load or store: " ++ goErrString e)

/-- `MustValue.Load` (the `Must` wrapper over `Value`): panic on any
non-nil error, else return `(v, ok)`. -/
def mustValueLoad (mv : MappedValue K V) (v0 : V) (d : CborDriver) :
    MustOut (V × Bool) :=
  match valueLoad mv v0 d with
  | (v, ok, none) => .ok (v, ok)
  | (_, _, some e) => .panicked ("MustValue cannot load: " ++ goErrString e)

/-!  Concrete fixtures used by witnesses and counterexamples: a
single-byte numeric codec (whose decoder rejects anything that is not a
one-byte string) and trivial snapshot marshallers. -/

/-- A concrete encoder pair on `Nat` keys and values: `n ↦ [n]`;
decoding fails on anything but a singleton byte string. -/
def natEnc : EncPair Nat Nat where
  kenc k := .ok [k]
  kdec bs := match bs with | [k] => .ok k | _ => .error (.msg "bad key bytes")
  venc v := .ok [v]
  vdec bs := match bs with | [v] => .ok v | _ => .error (.msg "bad value bytes")

/-- A trivial whole-map marshaller (file contents are never inspected by
the properties that use it). -/
def marshalLen : Mp → Bytes := fun m => [m.length]

/-- An unmarshaller matching `marshalLen` on the two snapshots the C6
witness touches. -/
def unmarshalLen : Bytes → Except GoErr Mp := fun bs =>
  if bs = [1] then .ok [([0], [1])] else .ok []

/-!  Helper lemmas about the association-list store and the iteration
primitive. -/

/-- Looking up a key just inserted finds the inserted value. -/
theorem lookupB_insertB_self (k v : Bytes) (m : Mp) :
    lookupB k (insertB k v m) = some v := by
  induction m with
  | nil => simp [insertB, lookupB]
  | cons hd tl ih =>
    obtain ⟨k', v'⟩ := hd
    by_cases h : k' = k
    · simp [insertB, h, lookupB]
    · simp [insertB, h, lookupB, ih]

/-- Looking up a key just erased misses. -/
theorem lookupB_eraseB_self (k : Bytes) (m : Mp) :
    lookupB k (eraseB k m) = none := by
  induction m with
  | nil => simp [eraseB, lookupB]
  | cons hd tl ih =>
    obtain ⟨k', v'⟩ := hd
    by_cases h : k' = k
    · simp [eraseB, h, ih]
    · simp [eraseB, h, lookupB, ih]

/-- If `Each` runs a prefix to completion without error, running it on the
prefix extended by more entries continues from the reached state. -/
theorem cborEach_append {σ : Type} (f : σ → Bytes → Bytes → Option GoErr × σ)
    (pre rest : Mp) (s s₁ : σ) (h : cborEach f pre s = (none, s₁)) :
    cborEach f (pre ++ rest) s = cborEach f rest s₁ := by
  induction pre generalizing s with
  | nil =>
    simp [cborEach] at h
    simp [h]
  | cons hd tl ih =>
    obtain ⟨k, v⟩ := hd
    simp only [cborEach, List.cons_append] at h ⊢
    cases hf : f s k v with
    | mk e s' =>
      cases e with
      | some e' => simp [hf] at h
      | none =>
        simp [hf] at h ⊢
        exact ih s' h

/-- The analogue of `cborEach_append` for `EachKey`. -/
theorem cborEachKey_append {σ : Type} (f : σ → Bytes → Option GoErr × σ)
    (pre rest : Mp) (s s₁ : σ) (h : cborEachKey f pre s = (none, s₁)) :
    cborEachKey f (pre ++ rest) s = cborEachKey f rest s₁ := by
  induction pre generalizing s with
  | nil =>
    simp [cborEachKey] at h
    simp [h]
  | cons hd tl ih =>
    obtain ⟨k, v⟩ := hd
    simp only [cborEachKey, List.cons_append] at h ⊢
    cases hf : f s k with
    | mk e s' =>
      cases e with
      | some e' => simp [hf] at h
      | none =>
        simp [hf] at h ⊢
        exact ih s' h

/-!  ## Claims -/

/-- C1: for every key `k` and value `v`, if `Map.Store(k, v)` succeeds
(returns nil error), then a subsequent `Map.Load(k)` with no intervening
mutation returns `(v, true, nil)`, assuming the value encoder satisfies
the round-trip law at `v`. -/
theorem c1_store_load_consistency {K V : Type} (enc : EncPair K V)
    (marshal : Mp → Bytes) (v0 : V) (k : K) (v : V) (d d' : CborDriver)
    (fs fs' : FS)
    (hrt : ∀ bs, enc.venc v = .ok bs → enc.vdec bs = .ok v)
    (hstore : mapStore enc marshal k v d fs = (none, d', fs')) :
    mapLoad enc v0 k d' = (v, true, none) := by
  cases hk : enc.kenc k with
  | error e => simp [mapStore, hk] at hstore
  | ok bk =>
    cases hv : enc.venc v with
    | error e => simp [mapStore, hk, hv] at hstore
    | ok bv =>
      simp [mapStore, hk, hv, acquireRW, cborSet] at hstore
      obtain ⟨hd', hfs'⟩ := hstore
      subst hd'
      simp [mapLoad, hk, acquireRO, cborGet, lookupB_insertB_self, hrt bv hv]

/-- Witness for C1: storing `7` under key `5` in an empty store succeeds,
and the subsequent load returns `(7, true, nil)`. -/
theorem c1_store_load_consistency_witness :
    mapLoad natEnc 0 5 ⟨"p", [([5], [7])]⟩ = (7, true, none) :=
  c1_store_load_consistency natEnc marshalLen 0 5 7 ⟨"p", []⟩ ⟨"p", [([5], [7])]⟩
    [] [("p", [1])]
    (fun bs h => by
      simp [natEnc] at h
      subst h
      rfl)
    (by rfl)

/-- C2: `Map.LoadOrStore(k, v)` on an absent key persists `v` but returns
the **zero value** of `V` as its first component — not the caller's `v` as
the claim and the `LoadOrStore` documentation state.  Concretely, with the
zero value `0` and `v = 1` on an empty store, the call stores
`encode(1) = [1]` under the key yet returns `(0, false, nil)`, and
`0 ≠ 1`. -/
theorem c2_loadorstore_returns_zero_not_v :
    mapLoadOrStore natEnc marshalLen 0 5 1 ⟨"p", []⟩ []
      = (0, false, none, ⟨"p", [([5], [1])]⟩, [("p", [1])])
    ∧ (0 : Nat) ≠ 1 := by
  constructor
  · rfl
  · decide

/-- C3: code bug — `cborDriver.AcquireRW` does **not** discard the
callback's `Set`/`Delete` effects when the callback errors: the callback
mutates the driver's map in place, and on error the method returns the
error without undoing the mutation (it only skips the file snapshot).
Concretely: starting from an empty store, a callback that does
`Set([0], [1])` and then fails with `"boom"` gets its error returned
verbatim, but afterwards the map holds `[0] ↦ [1]` — a `Get` that missed
before the transaction now finds the value. -/
theorem c3_acquirerw_keeps_effects_on_error :
    ∀ marshal : Mp → Bytes,
      acquireRW marshal ⟨"p", []⟩ []
          (fun m => (some (.msg "boom"), insertB [0] [1] m, ()))
        = (some (.msg "boom"), ⟨"p", [([0], [1])]⟩, [], ())
      ∧ cborGet [0] ([] : Mp) = ([], false, none)
      ∧ cborGet [0] ([([0], [1])] : Mp) = ([1], true, none) := by
  intro marshal
  exact ⟨rfl, rfl, rfl⟩

/-- A recording consumer for `Map.All`: accept every pair and append it to
the list of yields. -/
def recYield : List (Nat × Nat) → Nat → Nat → Bool × List (Nat × Nat) :=
  fun t k v => (true, t ++ [(k, v)])

/-- Counterexample for C4: `Map.All` stops on a decode failure, but the
failure is **not** surfaced to the consumer: `Map.All` discards the
`AcquireRO` error and the yielded sequence has no error channel.  Over
the store `{[1] ↦ [10], [2] ↦ [9, 9]}` (whose second value does not
decode), the recording consumer observes exactly what it observes over
the clean store `{[1] ↦ [10]}` — although internally the transaction
did fail with the wrapped decode error. -/
theorem c4_all_swallows_decode_error :
    mapAll natEnc ⟨"p", [([1], [10]), ([2], [9, 9])]⟩ recYield [] = [(1, 10)]
    ∧ mapAll natEnc ⟨"p", [([1], [10])]⟩ recYield [] = [(1, 10)]
    ∧ (acquireRO ⟨"p", [([1], [10]), ([2], [9, 9])]⟩
        (fun m => cborEach (mapAllVisitor natEnc recYield) m
          ([] : List (Nat × Nat)))).1
      = some (.wrap "decode value" (.msg "bad value bytes")) := by
  exact ⟨rfl, rfl, rfl⟩

/-- C4 as amended: if decoding the key or the value of an entry fails
during `Map.All` iteration, the iteration stops immediately — no entry
after the failing one is visited and no further pair is yielded — but the
decode failure is discarded by `Map.All`, so the consumer ends up exactly
in the state it reached after the entries preceding the failure, as if
the iteration had ended cleanly there. -/
theorem c4_all_stops_on_decode_error_and_discards_it (K V τ : Type) :
    ∀ (enc : EncPair K V) (yield : τ → K → V → Bool × τ) (path : String)
      (pre rest : Mp) (bk bv : Bytes) (t t₁ : τ),
      cborEach (mapAllVisitor enc yield) pre t = (none, t₁) →
      (∀ kk, enc.kdec bk ≠ .ok kk) ∨ (∀ vv, enc.vdec bv ≠ .ok vv) →
      mapAll enc ⟨path, pre ++ (bk, bv) :: rest⟩ yield t = t₁ := by
  intro enc yield path pre rest bk bv t t₁ hpre hdec
  show (cborEach (mapAllVisitor enc yield) (pre ++ (bk, bv) :: rest) t).2 = t₁
  rw [cborEach_append (mapAllVisitor enc yield) pre _ t t₁ hpre]
  rcases hdec with hk | hv
  · cases hkd : enc.kdec bk with
    | error e => simp [cborEach, mapAllVisitor, hkd]
    | ok kk => exact absurd hkd (hk kk)
  · cases hkd : enc.kdec bk with
    | error e => simp [cborEach, mapAllVisitor, hkd]
    | ok kk =>
      cases hvd : enc.vdec bv with
      | error e => simp [cborEach, mapAllVisitor, hkd, hvd]
      | ok vv => exact absurd hvd (hv vv)

/-- Witness for the amended C4: over
`{[1] ↦ [10], [2] ↦ [9, 9], [3] ↦ [11]}` the recording consumer sees
only `(1, 10)`: the undecodable second value ends the iteration, the
third entry is never yielded, and no error reaches the consumer. -/
theorem c4_all_stops_on_decode_error_witness :
    mapAll natEnc ⟨"p", [([1], [10])] ++ ([2], [9, 9]) :: [([3], [11])]⟩
      recYield [] = [(1, 10)] :=
  c4_all_stops_on_decode_error_and_discards_it Nat Nat (List (Nat × Nat))
    natEnc recYield "p" [([1], [10])] [([3], [11])] [2] [9, 9] [] [(1, 10)]
    rfl
    (Or.inr (fun vv h => by simp [natEnc] at h))

/-- Counterexample for C5: when the visitor returns the reserved stop
signal, `cborDriver.Each`/`EachKey` do **not** return success — they
return the `driverStopIteration` sentinel itself as their (non-nil)
error. -/
theorem c5_each_returns_stop_sentinel :
    (cborEach (fun (_ : Unit) (_ _ : Bytes) => (some driverStopIter, ()))
        [([0], [1])] ()).1 = some driverStopIter
    ∧ (cborEachKey (fun (_ : Unit) (_ : Bytes) => (some driverStopIter, ()))
        [([0], [1])] ()).1 = some driverStopIter
    ∧ some driverStopIter ≠ (none : Option GoErr) := by
  exact ⟨rfl, rfl, by decide⟩

/-- C5 as amended: `Each` and `EachKey` stop iterating the moment the
visitor returns any non-nil error — the reserved stop signal included —
and return that visitor error verbatim as their own result (the stop
signal is returned as-is, not converted to success; it is the `Map`
layer that later discards it). -/
theorem c5_each_stops_and_returns_visitor_error (σ : Type) :
    (∀ (f : σ → Bytes → Bytes → Option GoErr × σ) (pre rest : Mp)
        (s s₁ s₂ : σ) (k v : Bytes) (e : GoErr),
      cborEach f pre s = (none, s₁) → f s₁ k v = (some e, s₂) →
      cborEach f (pre ++ (k, v) :: rest) s = (some e, s₂))
    ∧ (∀ (g : σ → Bytes → Option GoErr × σ) (pre rest : Mp)
        (s s₁ s₂ : σ) (k v : Bytes) (e : GoErr),
      cborEachKey g pre s = (none, s₁) → g s₁ k = (some e, s₂) →
      cborEachKey g (pre ++ (k, v) :: rest) s = (some e, s₂)) := by
  constructor
  · intro f pre rest s s₁ s₂ k v e h hf
    rw [cborEach_append f pre _ s s₁ h]
    simp [cborEach, hf]
  · intro g pre rest s s₁ s₂ k v e h hg
    rw [cborEachKey_append g pre _ s s₁ h]
    simp [cborEachKey, hg]

/-- A visitor that accepts its first entry and asks to stop at its second,
counting its visits. -/
def countVisitor : Nat → Bytes → Bytes → Option GoErr × Nat :=
  fun n _ _ => if n = 0 then (none, 1) else (some driverStopIter, 2)

/-- The key-only analogue of `countVisitor`. -/
def countKeyVisitor : Nat → Bytes → Option GoErr × Nat :=
  fun n _ => if n = 0 then (none, 1) else (some driverStopIter, 2)

/-- Witness for the amended C5: a visitor that stops at its second entry
makes `Each`/`EachKey` end there — the third entry is never visited (the
counter stays at 2) — and both return the stop sentinel itself. -/
theorem c5_each_stops_witness :
    cborEach countVisitor ([([1], [2])] ++ ([3], [4]) :: [([5], [6])]) 0
      = (some driverStopIter, 2)
    ∧ cborEachKey countKeyVisitor ([([1], [2])] ++ ([3], [4]) :: [([5], [6])]) 0
      = (some driverStopIter, 2) :=
  ⟨(c5_each_stops_and_returns_visitor_error Nat).1 countVisitor
      [([1], [2])] [([5], [6])] 0 1 2 [3] [4] driverStopIter rfl rfl,
    (c5_each_stops_and_returns_visitor_error Nat).2 countKeyVisitor
      [([1], [2])] [([5], [6])] 0 1 2 [3] [4] driverStopIter rfl rfl⟩

/-- C6: code bug — `openCBORDriver` gives the `":memory:"` sentinel no
special treatment, although `DriverOpenFunc`'s contract in `driver.go`
demands a non-persistent driver (or an error) for it.  Opening
`":memory:"` on a filesystem with no file of that name returns a driver
with nil error and immediately writes a snapshot file at the literal path
`":memory:"`; moreover, a later open of the same path reads that file
back (shown under the assumption that the external CBOR codec round-trips
the written snapshot) — the backend silently persists. -/
theorem c6_opencbor_ignores_memory_sentinel :
    ∀ (marshal : Mp → Bytes) (unmarshal : Bytes → Except GoErr Mp),
      openCBORDriver marshal unmarshal [] ":memory:"
        = .ok (⟨":memory:", []⟩, [(":memory:", marshal [])])
      ∧ lookupFS ":memory:" [(":memory:", marshal [])] = some (marshal [])
      ∧ (∀ m' : Mp, unmarshal (marshal m') = .ok m' →
          openCBORDriver marshal unmarshal
              [(":memory:", marshal m')] ":memory:"
            = .ok (⟨":memory:", m'⟩, [(":memory:", marshal m')])) := by
  intro marshal unmarshal
  refine ⟨rfl, by simp [lookupFS], ?_⟩
  intro m' h
  simp [openCBORDriver, lookupFS, h]

/-- Witness for C6: with the concrete snapshot codec `marshalLen` /
`unmarshalLen`, reopening `":memory:"` finds the previously persisted
contents `{[0] ↦ [1]}`. -/
theorem c6_opencbor_ignores_memory_sentinel_witness :
    openCBORDriver marshalLen unmarshalLen
        [(":memory:", marshalLen [([0], [1])])] ":memory:"
      = .ok (⟨":memory:", [([0], [1])]⟩, [(":memory:", marshalLen [([0], [1])])]) :=
  (c6_opencbor_ignores_memory_sentinel marshalLen unmarshalLen).2.2
    [([0], [1])] rfl

/-- C7: `Map.LoadAndDelete(k)` runs one read-write transaction; on an
absent key it returns `(zero, false, nil)` with the map contents
unchanged (only the snapshot file is rewritten); on a present key whose
value decodes it returns `(v, true, nil)` and the key is absent
afterwards; and on a decode failure the transaction aborts with the
wrapped error, leaving the key, its stored bytes, the map and even the
snapshot file untouched — the decode happens before the delete. -/
theorem c7_loadanddelete_semantics {K V : Type} (enc : EncPair K V)
    (marshal : Mp → Bytes) (v0 : V) (k : K) (d : CborDriver) (fs : FS)
    (bk : Bytes) (hk : enc.kenc k = .ok bk) :
    (lookupB bk d.m = none →
      mapLoadAndDelete enc marshal v0 k d fs
        = (v0, false, none, ⟨d.path, d.m⟩, insertFS d.path (marshal d.m) fs))
    ∧ (∀ bv v, lookupB bk d.m = some bv → enc.vdec bv = .ok v →
        mapLoadAndDelete enc marshal v0 k d fs
          = (v, true, none, ⟨d.path, eraseB bk d.m⟩,
              insertFS d.path (marshal (eraseB bk d.m)) fs)
        ∧ lookupB bk (eraseB bk d.m) = none)
    ∧ (∀ bv e, lookupB bk d.m = some bv → enc.vdec bv = .error e →
        mapLoadAndDelete enc marshal v0 k d fs
          = (v0, true, some (.wrap "decode value" e), ⟨d.path, d.m⟩, fs)) := by
  refine ⟨?_, ?_, ?_⟩
  · intro habs
    simp [mapLoadAndDelete, hk, acquireRW, cborGet, habs]
  · intro bv v hbv hdec
    refine ⟨?_, lookupB_eraseB_self bk d.m⟩
    simp [mapLoadAndDelete, hk, acquireRW, cborGet, cborDelete, hbv, hdec]
  · intro bv e hbv hdec
    simp [mapLoadAndDelete, hk, acquireRW, cborGet, hbv, hdec]

/-- Witness for C7 (present key, decodable value): deleting the sole entry
`[5] ↦ [7]` returns `(7, true, nil)`, rewrites the snapshot and leaves
the key absent. -/
theorem c7_loadanddelete_witness :
    mapLoadAndDelete natEnc marshalLen 0 5 ⟨"p", [([5], [7])]⟩ []
      = (7, true, none, ⟨"p", []⟩, [("p", [0])])
    ∧ lookupB [5] (eraseB [5] [([5], [7])]) = none :=
  (c7_loadanddelete_semantics natEnc marshalLen 0 5 ⟨"p", [([5], [7])]⟩ []
    [5] rfl).2.1 [7] 7 rfl rfl

/-- C8: the `Must` wrappers' `Load`-style operations (`Load`,
`LoadAndDelete`, `LoadOrStore`) abort (panic) exactly when the wrapped
operation returns a non-nil error; key absence is no error and comes back
as the boolean `false` — in particular `MustMap.Load` and
`MustValue.Load` on an empty, freshly opened store return
`(zero, false)` without aborting. -/
theorem c8_must_load_aborts_iff_error {K V : Type} (enc : EncPair K V)
    (marshal : Mp → Bytes) (v0 : V) (k : K) (v : V) (d : CborDriver)
    (fs : FS) (path : String) :
    ((∃ s, mustMapLoad enc v0 k d = .panicked s)
      ↔ (mapLoad enc v0 k d).2.2 ≠ none)
    ∧ ((∃ s, mustMapLoadAndDelete enc marshal v0 k d fs = .panicked s)
      ↔ (mapLoadAndDelete enc marshal v0 k d fs).2.2.1 ≠ none)
    ∧ ((∃ s, mustMapLoadOrStore enc marshal v0 k v d fs = .panicked s)
      ↔ (mapLoadOrStore enc marshal v0 k v d fs).2.2.1 ≠ none)
    ∧ (∀ bk, enc.kenc k = .ok bk →
        mustMapLoad enc v0 k ⟨path, []⟩ = .ok (v0, false))
    ∧ (∀ (mv : MappedValue K V) bk, mv.m.kenc mv.k = .ok bk →
        mustValueLoad mv v0 ⟨path, []⟩ = .ok (v0, false)) := by
  refine ⟨?_, ?_, ?_, ?_, ?_⟩
  · unfold mustMapLoad
    rcases h : mapLoad enc v0 k d with ⟨v', ok', err'⟩
    cases err' <;> simp
  · unfold mustMapLoadAndDelete
    rcases h : mapLoadAndDelete enc marshal v0 k d fs
      with ⟨v', ok', err', d', fs'⟩
    cases err' <;> simp
  · unfold mustMapLoadOrStore
    rcases h : mapLoadOrStore enc marshal v0 k v d fs
      with ⟨v', ok', err', d', fs'⟩
    cases err' <;> simp
  · intro bk hbk
    simp [mustMapLoad, mapLoad, hbk, acquireRO, cborGet, lookupB]
  · intro mv bk hbk
    simp [mustValueLoad, valueLoad, mapLoad, hbk, acquireRO, cborGet, lookupB]

/-- Witness for C8: `MustMap.Load` of key `5` on an empty store returns
`(0, false)` without aborting. -/
theorem c8_must_load_witness :
    mustMapLoad natEnc 0 5 ⟨"p", []⟩ = .ok (0, false) :=
  (c8_must_load_aborts_iff_error natEnc marshalLen 0 5 1 ⟨"p", []⟩ []
    "p").2.2.2.1 [5] rfl

/-- C9: every `Value` operation is extensionally equal to the
corresponding `Map` operation applied to the fixed key
(`Store`, `Load`, `LoadOrStore`, `LoadAndDelete`, `Delete`, `Close`),
and the `Value` built by `NewValue` is bound to the internal constant
`valueKey = 0`. -/
theorem c9_value_is_map_at_fixed_key (K V : Type) :
    ∀ (mv : MappedValue K V) (enc0 : EncPair ValueKeyT V)
      (marshal : Mp → Bytes) (v0 v : V) (d : CborDriver) (fs : FS),
      valueStore mv marshal v d fs = mapStore mv.m marshal mv.k v d fs
      ∧ valueLoad mv v0 d = mapLoad mv.m v0 mv.k d
      ∧ valueLoadOrStore mv marshal v0 v d fs
          = mapLoadOrStore mv.m marshal v0 mv.k v d fs
      ∧ valueLoadAndDelete mv marshal v0 d fs
          = mapLoadAndDelete mv.m marshal v0 mv.k d fs
      ∧ valueDelete mv marshal d fs = mapDelete mv.m marshal mv.k d fs
      ∧ valueClose mv d = mapClose d
      ∧ (newValue enc0).k = valueKey
      ∧ valueKey = 0 := by
  intro mv enc0 marshal v0 v d fs
  exact ⟨rfl, rfl, rfl, rfl, rfl, rfl, rfl, rfl⟩

/-- C10: when `Map.Load(k)` finds the key but the stored bytes do not
decode, it returns `found = true` together with the wrapped decode error
(and the zero value); in general the returned flag equals key presence in
the backend, independent of decode success. -/
theorem c10_load_flag_reflects_presence {K V : Type} (enc : EncPair K V)
    (v0 : V) (k : K) (d : CborDriver) (bk : Bytes)
    (hk : enc.kenc k = .ok bk) :
    (∀ bv e, lookupB bk d.m = some bv → enc.vdec bv = .error e →
      mapLoad enc v0 k d = (v0, true, some (.wrap "decode value" e)))
    ∧ (mapLoad enc v0 k d).2.1 = (lookupB bk d.m).isSome := by
  constructor
  · intro bv e hbv hdec
    simp [mapLoad, hk, acquireRO, cborGet, hbv, hdec]
  · cases hbv : lookupB bk d.m with
    | none => simp [mapLoad, hk, acquireRO, cborGet, hbv]
    | some bv =>
      cases hdec : enc.vdec bv with
      | error e => simp [mapLoad, hk, acquireRO, cborGet, hbv, hdec]
      | ok w => simp [mapLoad, hk, acquireRO, cborGet, hbv, hdec]

/-- Witness for C10: loading key `5` whose stored bytes `[9, 9]` do not
decode returns `(0, true, decode error)` — found, but failed. -/
theorem c10_load_flag_witness :
    mapLoad natEnc 0 5 ⟨"p", [([5], [9, 9])]⟩
      = (0, true, some (.wrap "decode value" (.msg "bad value bytes"))) :=
  (c10_load_flag_reflects_presence natEnc 0 5 ⟨"p", [([5], [9, 9])]⟩
    [5] rfl).1 [9, 9] (.msg "bad value bytes") rfl rfl

end Persist
